import Mathlib

/-!
Verification development for the hexapod leg-geometry model
(`hexapod/linkage.py` of MikeyBeez/hexapod-robot-simulator).

The file shallowly embeds the `Linkage` class and the point/frame
primitives it uses.  Scalars are modelled over an arbitrary linearly
ordered commutative ring `K` (the source computes with real numbers;
every property below is algebraic in the scalar values, so the theorems
instantiate to the idealized real-number semantics, while concrete
evaluations instantiate `K := ℤ`).  The cosine/sine functions fed to the
frame builders are kept abstract in a `TrigModel` parameter; a concrete
integer table `trigTable` is used for concrete evaluations, carrying the
genuine cosine/sine values at the only angles those evaluations exercise
(0 and 90 degrees).

`hexapod/points.py` is not part of the sources: only `linkage.py` (its
caller) is.  The `Point` type, the two frame builders and the two
point-transformation operations are therefore modelled from the spec, as
flagged in their doc comments.  `linkage.py` itself is embedded
definition by definition.
-/

/-- Modelled from the spec: `hexapod/points.py` is missing from the
sources.  A `Point` is `(x, y, z, name)`; `linkage.py` stores a `Point`
whose `name` may be absent (`None`), so the name is an `Option`.
Equality is component-wise. -/
structure Point (K : Type) where
  x : K
  y : K
  z : K
  name : Option String
deriving DecidableEq

/-- Modelled from the spec: an abstract degree-based cosine/sine pair.
`cos θ` stands for the cosine of `θ` degrees (the source converts
degrees to radians before calling the numeric cosine). -/
structure TrigModel (K : Type) where
  cos : K → K
  sin : K → K

/-- Modelled from the spec: a homogeneous 4×4 frame transform whose
bottom row is `[0,0,0,1]` (every frame the source builds or composes has
this shape): a 3×3 rotation block and a translation column. -/
structure Frame (K : Type) where
  xx : K
  xy : K
  xz : K
  yx : K
  yy : K
  yz : K
  zx : K
  zy : K
  zz : K
  tx : K
  ty : K
  tz : K
deriving DecidableEq

variable {K : Type} [LinearOrderedCommRing K]

/-- Modelled from the spec: the link transform — rotate about the Y axis
by `theta` (degrees), then translate along X by `x`.  The rotation block
is the standard right-handed Y rotation, which sends the X unit vector
to `(cos theta, 0, -sin theta)`; this is the convention that realises
the documented neutral pose (tibia pointing straight down). -/
def frame_yrotate_xtranslate (T : TrigModel K) (theta x : K) : Frame K :=
  { xx := T.cos theta, xy := 0, xz := T.sin theta
    yx := 0, yy := 1, yz := 0
    zx := -(T.sin theta), zy := 0, zz := T.cos theta
    tx := x, ty := 0, tz := 0 }

/-- Modelled from the spec: the mount transform — rotate about the Z
axis by `theta` (degrees), then translate in the XY plane by `(x, y)`. -/
def frame_zrotate_xytranslate (T : TrigModel K) (theta x y : K) : Frame K :=
  { xx := T.cos theta, xy := -(T.sin theta), xz := 0
    yx := T.sin theta, yy := T.cos theta, yz := 0
    zx := 0, zy := 0, zz := 1
    tx := x, ty := y, tz := 0 }

/-- Composition of two homogeneous frames, `Frame.comp f g = f · g` as
4×4 matrices (the source uses `np.matmul`); applying it first applies
`g`, then `f`. -/
def Frame.comp (f g : Frame K) : Frame K :=
  { xx := f.xx * g.xx + f.xy * g.yx + f.xz * g.zx
    xy := f.xx * g.xy + f.xy * g.yy + f.xz * g.zy
    xz := f.xx * g.xz + f.xy * g.yz + f.xz * g.zz
    yx := f.yx * g.xx + f.yy * g.yx + f.yz * g.zx
    yy := f.yx * g.xy + f.yy * g.yy + f.yz * g.zy
    yz := f.yx * g.xz + f.yy * g.yz + f.yz * g.zz
    zx := f.zx * g.xx + f.zy * g.yx + f.zz * g.zx
    zy := f.zx * g.xy + f.zy * g.yy + f.zz * g.zy
    zz := f.zx * g.xz + f.zy * g.yz + f.zz * g.zz
    tx := f.xx * g.tx + f.xy * g.ty + f.xz * g.tz + f.tx
    ty := f.yx * g.tx + f.yy * g.ty + f.yz * g.tz + f.ty
    tz := f.zx * g.tx + f.zy * g.ty + f.zz * g.tz + f.tz }

/-- Modelled from the spec: `point_wrt` — apply the frame's
rotation+translation to the point's coordinates; the name is preserved
when no new name is supplied. -/
def Point.get_point_wrt (p : Point K) (f : Frame K) : Point K :=
  { x := f.xx * p.x + f.xy * p.y + f.xz * p.z + f.tx
    y := f.yx * p.x + f.yy * p.y + f.yz * p.z + f.ty
    z := f.zx * p.x + f.zy * p.y + f.zz * p.z + f.tz
    name := p.name }

/-- Modelled from the spec: `point_wrt` with an explicit new name (the
source's `name=` keyword argument of `get_point_wrt`). -/
def Point.get_point_wrt_named (p : Point K) (f : Frame K) (nm : String) : Point K :=
  { p.get_point_wrt f with name := some nm }

/-- Modelled from the spec: `update_point_wrt(frame, height)` —
re-express the point through the frame and additionally offset its `z`
by the given height; the name is untouched.  The source mutates the
point in place; the model returns the new value. -/
def Point.update_point_wrt (p : Point K) (f : Frame K) (height : K) : Point K :=
  let q := p.get_point_wrt f
  { q with z := q.z + height }

/-- Placeholder point used as the (never-reached) default of positional
list reads; every state built by the public operations carries exactly
four points. -/
def dummyPoint : Point K := { x := 0, y := 0, z := 0, name := none }

/-- The `Linkage` state (`linkage.py`, `__slots__`).  The source's
`ground_contact_point` attribute holds a reference to one of the `Point`
objects of `all_points`; the model represents that reference as the
index `gc_index` of the referenced element. -/
structure Linkage (K : Type) where
  a : K
  b : K
  c : K
  alpha : K
  beta : K
  gamma : K
  coxia_axis : K
  new_origin : Point K
  name : Option String
  id : Option Int
  all_points : List (Point K)
  gc_index : Nat
deriving DecidableEq

/-- `Linkage.compute_ground_contact` (linkage.py lines 160-167) on a
point list: start from `p3` and scan `reversed(all_points)` =
`[p3, p2, p1, p0]`, replacing the candidate only on a strictly smaller
`z`.  Returns the index of the point object the source ends up
referencing. -/
def compute_ground_contact_list (pts : List (Point K)) : Nat :=
  [3, 2, 1, 0].foldl
    (fun cur i => if (pts.getD i dummyPoint).z < (pts.getD cur dummyPoint).z then i else cur) 3

/-- Method form: `Linkage.compute_ground_contact` scans the linkage's
own point list. -/
def Linkage.compute_ground_contact (l : Linkage K) : Nat :=
  compute_ground_contact_list l.all_points

/-- The point list built by `change_pose` (linkage.py lines 129-153),
for a linkage whose `new_origin.name` and `name` are present (the names
are consumed by string concatenation, see `Linkage.change_pose`). -/
def change_pose_points (T : TrigModel K) (l : Linkage K) (alpha beta gamma : K)
    (origin_name leg_name : String) : List (Point K) :=
  let frame_01 := frame_yrotate_xtranslate T (-beta) l.a
  let frame_12 := frame_yrotate_xtranslate T (90 - gamma) l.b
  let frame_23 := frame_yrotate_xtranslate T 0 l.c
  let frame_02 := Frame.comp frame_01 frame_12
  let frame_03 := Frame.comp frame_02 frame_23
  let new_frame :=
    frame_zrotate_xytranslate T (l.coxia_axis + alpha) l.new_origin.x l.new_origin.y
  let q0 : Point K := { x := 0, y := 0, z := 0, name := none }
  let q1 := q0.get_point_wrt frame_01
  let q2 := q0.get_point_wrt frame_02
  let q3 := q0.get_point_wrt frame_03
  let p0 : Point K := { l.new_origin with name := some (origin_name ++ "-body-contact") }
  let p1 := q1.get_point_wrt_named new_frame (leg_name ++ "-coxia")
  let p2 := q2.get_point_wrt_named new_frame (leg_name ++ "-femur")
  let p3 := q3.get_point_wrt_named new_frame (leg_name ++ "-tibia")
  [p0, p1, p2, p3]

/-- `Linkage.change_pose` (linkage.py lines 124-154): store the angles,
rebuild all four points and recompute the ground contact.  The source
evaluates `p0.name += "-body-contact"` and `self.name + "-coxia"`
(lines 148-151); when either name is `None` this raises a `TypeError`,
modelled as `none` (the frame and point algebra preceding it is total,
so checking the two names first is observationally identical). -/
def Linkage.change_pose (l : Linkage K) (T : TrigModel K) (alpha beta gamma : K) :
    Option (Linkage K) :=
  match l.new_origin.name, l.name with
  | some origin_name, some leg_name =>
      let pts := change_pose_points T l alpha beta gamma origin_name leg_name
      some { l with alpha := alpha, beta := beta, gamma := gamma,
                    all_points := pts,
                    gc_index := compute_ground_contact_list pts }
  | _, _ => none

/-- `Linkage.__init__` (linkage.py lines 87-107): store the scalar
configuration and immediately run `change_pose` on the initial angles. -/
def Linkage.init (T : TrigModel K) (a b c alpha beta gamma coxia_axis : K)
    (new_origin : Point K) (name : Option String) (id_number : Option Int) :
    Option (Linkage K) :=
  Linkage.change_pose
    { a := a, b := b, c := c, alpha := 0, beta := 0, gamma := 0,
      coxia_axis := coxia_axis, new_origin := new_origin, name := name,
      id := id_number, all_points := [], gc_index := 0 }
    T alpha beta gamma

/-- Indexed read of the point set (`__getattr__`, linkage.py lines
193-198: `p0..p3` read `all_points[i]`). -/
def Linkage.pget (l : Linkage K) (i : Nat) : Point K :=
  l.all_points.getD i dummyPoint

/-- Named view `p0` (`__getattr__`). -/
def Linkage.p0 (l : Linkage K) : Point K := l.pget 0

/-- Named view `p1` (`__getattr__`). -/
def Linkage.p1 (l : Linkage K) : Point K := l.pget 1

/-- Named view `p2` (`__getattr__`). -/
def Linkage.p2 (l : Linkage K) : Point K := l.pget 2

/-- Named view `p3` (`__getattr__`). -/
def Linkage.p3 (l : Linkage K) : Point K := l.pget 3

/-- The point the `ground_contact_point` attribute references. -/
def Linkage.ground_contact_point (l : Linkage K) : Point K :=
  l.pget l.gc_index

/-- `Linkage.coxia_angle` (linkage.py line 109). -/
def Linkage.coxia_angle (l : Linkage K) : K := l.alpha

/-- `Linkage.coxia_point` (linkage.py line 112): returns `p1`. -/
def Linkage.coxia_point (l : Linkage K) : Point K := l.p1

/-- `Linkage.femur_point` (linkage.py line 115): returns `p2`. -/
def Linkage.femur_point (l : Linkage K) : Point K := l.p2

/-- `Linkage.foot_tip` (linkage.py line 118): returns `p3`. -/
def Linkage.foot_tip (l : Linkage K) : Point K := l.p3

/-- `Linkage.ground_contact` (linkage.py line 121): returns
`ground_contact_point`. -/
def Linkage.ground_contact (l : Linkage K) : Point K := l.ground_contact_point

/-- `Linkage.update_leg_wrt` (linkage.py lines 156-158): re-express each
stored point in place; nothing else changes (in particular the
`ground_contact_point` reference still points at the same element). -/
def Linkage.update_leg_wrt (l : Linkage K) (frame : Frame K) (height : K) : Linkage K :=
  { l with all_points := l.all_points.map (fun p => p.update_point_wrt frame height) }

/-- Direct assignment to `p0..p3` (`__setattr__`, linkage.py lines
200-206): overwrite `all_points[i]`.  The `ground_contact_point`
reference is not touched. -/
def Linkage.set_point (l : Linkage K) (i : Nat) (q : Point K) : Linkage K :=
  { l with all_points := l.all_points.set i q }

/-- Triple of coordinates of a point (used to state coordinate-level
equalities, which ignore the name component). -/
def Point.coords (p : Point K) : K × K × K := (p.x, p.y, p.z)

/-- Integer cosine table for concrete evaluations.  At the angles the
concrete instances use (0 and 90 degrees) the values are the genuine
cosine/sine values, so the evaluated states are exactly the states the
source would compute under exact arithmetic. -/
def trigTable : TrigModel ℤ where
  cos theta := if theta = 0 then 1 else if theta = 90 then 0 else 1
  sin theta := if theta = 0 then 0 else if theta = 90 then 1 else 0

/-- States reachable through construction and `change_pose` alone. -/
inductive ReachableCP (T : TrigModel K) : Linkage K → Prop
  | mk_init : ∀ a b c alpha beta gamma coxia_axis new_origin name id_number l,
      Linkage.init T a b c alpha beta gamma coxia_axis new_origin name id_number = some l →
      ReachableCP T l
  | step_change_pose : ∀ l alpha beta gamma l', ReachableCP T l →
      l.change_pose T alpha beta gamma = some l' → ReachableCP T l'

/-- States reachable through all public operations of the `Linkage`
class: construction, `change_pose`, `update_leg_wrt`, and direct
assignment to the named fields `p0..p3`. -/
inductive Reachable (T : TrigModel K) : Linkage K → Prop
  | mk_init : ∀ a b c alpha beta gamma coxia_axis new_origin name id_number l,
      Linkage.init T a b c alpha beta gamma coxia_axis new_origin name id_number = some l →
      Reachable T l
  | step_change_pose : ∀ l alpha beta gamma l', Reachable T l →
      l.change_pose T alpha beta gamma = some l' → Reachable T l'
  | step_update_leg_wrt : ∀ l frame height, Reachable T l →
      Reachable T (l.update_leg_wrt frame height)
  | step_set_point : ∀ l i q, Reachable T l → i < 4 →
      Reachable T (l.set_point i q)

/-- Concrete base state for evaluations: segment lengths 1, neutral
configuration, named, with empty placeholder point data (as handed to
`change_pose` by the constructor). -/
def legBase : Linkage ℤ :=
  { a := 1, b := 1, c := 1, alpha := 0, beta := 0, gamma := 0, coxia_axis := 0,
    new_origin := { x := 0, y := 0, z := 0, name := some "o" },
    name := some "leg", id := none, all_points := [], gc_index := 0 }

/-- The state `legBase.change_pose trigTable 0 0 0` evaluates to: the
neutral pose of a leg with unit segments mounted at the origin. -/
def legNeutral : Linkage ℤ :=
  { a := 1, b := 1, c := 1, alpha := 0, beta := 0, gamma := 0, coxia_axis := 0,
    new_origin := { x := 0, y := 0, z := 0, name := some "o" },
    name := some "leg", id := none,
    all_points :=
      [ { x := 0, y := 0, z := 0, name := some "o-body-contact" },
        { x := 1, y := 0, z := 0, name := some "leg-coxia" },
        { x := 2, y := 0, z := 0, name := some "leg-femur" },
        { x := 2, y := 0, z := -1, name := some "leg-tibia" } ],
    gc_index := 3 }

/-- The neutral state after a direct assignment of a very low point to
`p0`: the ground-contact reference still designates index 3. -/
def legLow : Linkage ℤ :=
  legNeutral.set_point 0 { x := 0, y := 0, z := -100, name := some "low" }

/-- Inversion principle for `change_pose`: a successful call requires
both names to be present, and fully determines the result state. -/
theorem Linkage.change_pose_inv (l : Linkage K) (T : TrigModel K) (alpha beta gamma : K)
    (l' : Linkage K) (h : l.change_pose T alpha beta gamma = some l') :
    ∃ origin_name leg_name,
      l.new_origin.name = some origin_name ∧ l.name = some leg_name ∧
      l' = { l with alpha := alpha, beta := beta, gamma := gamma,
                    all_points := change_pose_points T l alpha beta gamma origin_name leg_name,
                    gc_index := compute_ground_contact_list
                      (change_pose_points T l alpha beta gamma origin_name leg_name) } := by
  cases honm : l.new_origin.name with
  | none => simp [Linkage.change_pose, honm] at h
  | some onm =>
    cases hnm : l.name with
    | none => simp [Linkage.change_pose, honm, hnm] at h
    | some nm =>
      refine ⟨onm, nm, rfl, rfl, ?_⟩
      simp [Linkage.change_pose, honm, hnm] at h
      exact h.symm

/-- The ground-contact scan on a four-point list: the returned index is
in range, references a point of minimal `z`, and on exact ties it is the
largest such index (the point scanned earliest in the tip-to-body order
`[p3, p2, p1, p0]`, i.e. the one closest to the tip). -/
theorem compute_ground_contact_list_spec (q0 q1 q2 q3 : Point K) :
    compute_ground_contact_list [q0, q1, q2, q3] < 4 ∧
    [q0, q1, q2, q3].getD (compute_ground_contact_list [q0, q1, q2, q3]) dummyPoint
      ∈ [q0, q1, q2, q3] ∧
    (∀ p ∈ [q0, q1, q2, q3],
      ([q0, q1, q2, q3].getD (compute_ground_contact_list [q0, q1, q2, q3]) dummyPoint).z ≤ p.z) ∧
    (∀ i < 4, ([q0, q1, q2, q3].getD i dummyPoint).z =
        ([q0, q1, q2, q3].getD (compute_ground_contact_list [q0, q1, q2, q3]) dummyPoint).z →
      i ≤ compute_ground_contact_list [q0, q1, q2, q3]) := by
  have g0 : [q0, q1, q2, q3].getD 0 dummyPoint = q0 := rfl
  have g1 : [q0, q1, q2, q3].getD 1 dummyPoint = q1 := rfl
  have g2 : [q0, q1, q2, q3].getD 2 dummyPoint = q2 := rfl
  have g3 : [q0, q1, q2, q3].getD 3 dummyPoint = q3 := rfl
  simp only [compute_ground_contact_list, List.foldl_cons, List.foldl_nil]
  simp only [apply_ite (fun n => [q0, q1, q2, q3].getD n dummyPoint), g0, g1, g2, g3, ite_self]
  split_ifs <;>
    refine ⟨by norm_num, by simp, ?_, ?_⟩ <;>
    first
      | (intro p hp
         simp only [List.mem_cons, List.not_mem_nil, or_false] at hp
         rcases hp with rfl | rfl | rfl | rfl <;> linarith)
      | (intro i hi hz
         interval_cases i <;> simp only [g0, g1, g2, g3] at hz <;>
           first
             | omega
             | (exfalso; linarith))

/-- A list of length four is a four-element literal. -/
theorem length_four_exists {A : Type} {l : List A} (h : l.length = 4) :
    ∃ a0 a1 a2 a3, l = [a0, a1, a2, a3] := by
  match l, h with
  | [a0, a1, a2, a3], _ => exact ⟨a0, a1, a2, a3, rfl⟩

/-- Claim C4 (the claim is right, the code raises): constructing a
`Linkage` with the documented default `name=None` does not complete
normally — `change_pose` evaluates `self.name + "-coxia"` with
`self.name = None` and raises a `TypeError`, modelled as `none` — for
every trigonometric interpretation, every finite segment length and
every angle triple. -/
theorem C4_default_name_raises (T : TrigModel K) (a b c alpha beta gamma : K) :
    Linkage.init T a b c alpha beta gamma 0
      { x := 0, y := 0, z := 0, name := some "origin" } none none = none := rfl

/-- Claim C8: `update_leg_wrt(frame, height)` re-expresses each stored
point through the frame with the height offset and changes nothing
else: angles, lengths, mount data, names and the `ground_contact_point`
reference (modelled by `gc_index`) are untouched, so the reference still
designates the same element of the point set. -/
theorem C8_update_leg_wrt_effect (l : Linkage K) (frame : Frame K) (height : K) :
    (l.update_leg_wrt frame height).all_points
        = l.all_points.map (fun p => p.update_point_wrt frame height) ∧
    (l.update_leg_wrt frame height).alpha = l.alpha ∧
    (l.update_leg_wrt frame height).beta = l.beta ∧
    (l.update_leg_wrt frame height).gamma = l.gamma ∧
    (l.update_leg_wrt frame height).a = l.a ∧
    (l.update_leg_wrt frame height).b = l.b ∧
    (l.update_leg_wrt frame height).c = l.c ∧
    (l.update_leg_wrt frame height).coxia_axis = l.coxia_axis ∧
    (l.update_leg_wrt frame height).new_origin = l.new_origin ∧
    (l.update_leg_wrt frame height).name = l.name ∧
    (l.update_leg_wrt frame height).id = l.id ∧
    (l.update_leg_wrt frame height).gc_index = l.gc_index :=
  ⟨rfl, rfl, rfl, rfl, rfl, rfl, rfl, rfl, rfl, rfl, rfl, rfl⟩

/-- Claim C10: a successful `change_pose` writes only the angles, the
point set and the ground-contact reference; the lengths, the mount data
(`coxia_axis` and the whole `new_origin` point, coordinates and name),
the leg name and the id are left unchanged. -/
theorem C10_change_pose_frame (T : TrigModel K) (l : Linkage K) (alpha beta gamma : K)
    (l' : Linkage K) (h : l.change_pose T alpha beta gamma = some l') :
    l'.a = l.a ∧ l'.b = l.b ∧ l'.c = l.c ∧ l'.coxia_axis = l.coxia_axis ∧
    l'.name = l.name ∧ l'.id = l.id ∧ l'.new_origin = l.new_origin ∧
    l'.alpha = alpha ∧ l'.beta = beta ∧ l'.gamma = gamma := by
  obtain ⟨onm, nm, honm, hnm, rfl⟩ := l.change_pose_inv T alpha beta gamma l' h
  exact ⟨rfl, rfl, rfl, rfl, rfl, rfl, rfl, rfl, rfl, rfl⟩

/-- Witness for C10 at a concrete state. -/
theorem C10_change_pose_frame_witness :
    legNeutral.a = legBase.a ∧ legNeutral.b = legBase.b ∧ legNeutral.c = legBase.c ∧
    legNeutral.coxia_axis = legBase.coxia_axis ∧ legNeutral.name = legBase.name ∧
    legNeutral.id = legBase.id ∧ legNeutral.new_origin = legBase.new_origin ∧
    legNeutral.alpha = 0 ∧ legNeutral.beta = 0 ∧ legNeutral.gamma = 0 :=
  C10_change_pose_frame trigTable legBase 0 0 0 legNeutral (by decide)

/-- Claim C7: `change_pose` is idempotent — running it a second time
with the same angles from the state it produced reproduces that state
exactly (same point coordinates and names, same angles, same
ground-contact reference). -/
theorem C7_change_pose_idempotent (T : TrigModel K) (l : Linkage K) (alpha beta gamma : K)
    (l' : Linkage K) (h : l.change_pose T alpha beta gamma = some l') :
    l'.change_pose T alpha beta gamma = some l' := by
  obtain ⟨onm, nm, honm, hnm, rfl⟩ := l.change_pose_inv T alpha beta gamma l' h
  simp [Linkage.change_pose, honm, hnm, change_pose_points]

/-- Witness for C7 at a concrete state. -/
theorem C7_change_pose_idempotent_witness :
    legNeutral.change_pose trigTable 0 0 0 = some legNeutral :=
  C7_change_pose_idempotent trigTable legBase 0 0 0 legNeutral (by decide)

/-- Claim C9: after assigning point `q` at index `i`, reading the named
field and reading `all_points[i]` both return exactly `q`; and the named
accessors return `p1`, `p2`, `p3` and `ground_contact_point`
respectively, with `p1..p3` being the indexed reads of the point set. -/
theorem C9_point_accessors (l : Linkage K) (i : Nat) (q : Point K)
    (hi : i < 4) (h4 : l.all_points.length = 4) :
    (l.set_point i q).pget i = q ∧
    (l.set_point i q).all_points.getD i dummyPoint = q ∧
    l.coxia_point = l.p1 ∧ l.femur_point = l.p2 ∧ l.foot_tip = l.p3 ∧
    l.ground_contact = l.ground_contact_point ∧
    l.p1 = l.pget 1 ∧ l.p2 = l.pget 2 ∧ l.p3 = l.pget 3 := by
  obtain ⟨a0, a1, a2, a3, hl⟩ := length_four_exists h4
  have key : (l.all_points.set i q).getD i dummyPoint = q := by
    rw [hl]
    interval_cases i <;> rfl
  exact ⟨key, key, rfl, rfl, rfl, rfl, rfl, rfl, rfl⟩

/-- Witness for C9 at a concrete state and index. -/
theorem C9_point_accessors_witness :
    (legNeutral.set_point 1 { x := 7, y := 8, z := 9, name := some "q" }).pget 1
        = { x := 7, y := 8, z := 9, name := some "q" } ∧
    (legNeutral.set_point 1 { x := 7, y := 8, z := 9, name := some "q" }).all_points.getD 1
        dummyPoint = { x := 7, y := 8, z := 9, name := some "q" } ∧
    legNeutral.coxia_point = legNeutral.p1 ∧ legNeutral.femur_point = legNeutral.p2 ∧
    legNeutral.foot_tip = legNeutral.p3 ∧
    legNeutral.ground_contact = legNeutral.ground_contact_point ∧
    legNeutral.p1 = legNeutral.pget 1 ∧ legNeutral.p2 = legNeutral.pget 2 ∧
    legNeutral.p3 = legNeutral.pget 3 :=
  C9_point_accessors legNeutral 1 { x := 7, y := 8, z := 9, name := some "q" }
    (by decide) (by decide)

/-- Claim C1 (amended): in every state reached through construction or
`change_pose`, the referenced ground-contact point is one of the four
stored points and has minimal `z` among them.  (The original claim also
ranged over `update_leg_wrt` and direct point assignment; those do not
recompute the reference, and `C1_counterexample` shows the property then
fails.) -/
theorem C1_ground_contact_min (T : TrigModel K) (l : Linkage K) (h : ReachableCP T l) :
    l.ground_contact_point ∈ l.all_points ∧
    ∀ p ∈ l.all_points, l.ground_contact_point.z ≤ p.z := by
  have key : ∀ (m : Linkage K) (alpha beta gamma : K) (m' : Linkage K),
      m.change_pose T alpha beta gamma = some m' →
      m'.ground_contact_point ∈ m'.all_points ∧
      ∀ p ∈ m'.all_points, m'.ground_contact_point.z ≤ p.z := by
    intro m alpha beta gamma m' hm
    obtain ⟨onm, nm, honm, hnm, hm'⟩ := m.change_pose_inv T alpha beta gamma m' hm
    have hap : m'.all_points = change_pose_points T m alpha beta gamma onm nm := by
      rw [hm']
    have hgi : m'.gc_index
        = compute_ground_contact_list (change_pose_points T m alpha beta gamma onm nm) := by
      rw [hm']
    obtain ⟨P0, P1, P2, P3, hP⟩ : ∃ P0 P1 P2 P3,
        change_pose_points T m alpha beta gamma onm nm = [P0, P1, P2, P3] :=
      ⟨_, _, _, _, rfl⟩
    have hspec := compute_ground_contact_list_spec P0 P1 P2 P3
    simp only [Linkage.ground_contact_point, Linkage.pget, hap, hgi, hP]
    exact ⟨hspec.2.1, hspec.2.2.1⟩
  induction h with
  | mk_init a b c alpha beta gamma coxia_axis new_origin name id_number l0 h0 =>
      exact key _ alpha beta gamma l0 h0
  | step_change_pose l0 alpha beta gamma l' hr hcp ih =>
      exact key l0 alpha beta gamma l' hcp

/-- Witness for C1 at a concrete reachable state. -/
theorem C1_ground_contact_min_witness :
    legNeutral.ground_contact_point ∈ legNeutral.all_points ∧
    ∀ p ∈ legNeutral.all_points, legNeutral.ground_contact_point.z ≤ p.z :=
  C1_ground_contact_min trigTable legNeutral
    (ReachableCP.mk_init (1 : ℤ) 1 1 0 0 0 0 { x := 0, y := 0, z := 0, name := some "o" }
      (some "leg") none legNeutral (by decide))

/-- Counterexample to claim C1 as stated: `legLow` is reachable through
the claim's public operations (construction followed by a direct
assignment to `p0`), yet its ground-contact reference still designates
the old tibia tip with `z = -1` while the freshly assigned `p0` has
`z = -100`, so the referenced point does not have minimal `z`. -/
theorem C1_counterexample :
    Reachable trigTable legLow ∧
    ¬ (legLow.ground_contact_point ∈ legLow.all_points ∧
       ∀ p ∈ legLow.all_points, legLow.ground_contact_point.z ≤ p.z) :=
  ⟨Reachable.step_set_point legNeutral 0 { x := 0, y := 0, z := -100, name := some "low" }
      (Reachable.mk_init (1 : ℤ) 1 1 0 0 0 0 { x := 0, y := 0, z := 0, name := some "o" }
        (some "leg") none legNeutral (by decide))
      (by decide),
    by decide⟩

/-- Claim C5 (amended): after a successful `change_pose`, the recomputed
ground-contact reference designates, among the points of exactly minimal
`z`, the point of LARGEST index — the point scanned earliest in the
tip-to-body order `[p3, p2, p1, p0]`, i.e. the tied point closest to the
tip (the strict comparison in the scan never replaces the candidate on
an exact tie).  The original claim's "later tied point in the scan
order" is refuted by `C5_counterexample`. -/
theorem C5_tie_breaks_toward_tip (T : TrigModel K) (l : Linkage K) (alpha beta gamma : K)
    (l' : Linkage K) (h : l.change_pose T alpha beta gamma = some l') :
    l'.gc_index < 4 ∧
    l'.ground_contact_point = l'.pget l'.gc_index ∧
    (∀ i < 4, l'.ground_contact_point.z ≤ (l'.pget i).z) ∧
    (∀ i < 4, (l'.pget i).z = l'.ground_contact_point.z → i ≤ l'.gc_index) := by
  obtain ⟨onm, nm, honm, hnm, hm'⟩ := l.change_pose_inv T alpha beta gamma l' h
  have hap : l'.all_points = change_pose_points T l alpha beta gamma onm nm := by
    rw [hm']
  have hgi : l'.gc_index
      = compute_ground_contact_list (change_pose_points T l alpha beta gamma onm nm) := by
    rw [hm']
  obtain ⟨P0, P1, P2, P3, hP⟩ : ∃ P0 P1 P2 P3,
      change_pose_points T l alpha beta gamma onm nm = [P0, P1, P2, P3] :=
    ⟨_, _, _, _, rfl⟩
  have hspec := compute_ground_contact_list_spec P0 P1 P2 P3
  refine ⟨?_, rfl, ?_, ?_⟩
  · rw [hgi, hP]
    exact hspec.1
  · intro i hi
    simp only [Linkage.ground_contact_point, Linkage.pget, hap, hgi, hP]
    interval_cases i
    · exact hspec.2.2.1 P0 (by simp)
    · exact hspec.2.2.1 P1 (by simp)
    · exact hspec.2.2.1 P2 (by simp)
    · exact hspec.2.2.1 P3 (by simp)
  · intro i hi
    simp only [Linkage.ground_contact_point, Linkage.pget, hap, hgi, hP]
    exact hspec.2.2.2 i hi

/-- Witness for C5 at a concrete state. -/
theorem C5_tie_breaks_toward_tip_witness :
    legNeutral.gc_index < 4 ∧
    legNeutral.ground_contact_point = legNeutral.pget legNeutral.gc_index ∧
    (∀ i < 4, legNeutral.ground_contact_point.z ≤ (legNeutral.pget i).z) ∧
    (∀ i < 4, (legNeutral.pget i).z = legNeutral.ground_contact_point.z →
      i ≤ legNeutral.gc_index) :=
  C5_tie_breaks_toward_tip trigTable legBase 0 0 0 legNeutral (by decide)

/-- Counterexample to claim C5 as stated: with `c = 0` and the neutral
angles every one of the four points has `z = 0` (an exact four-way tie),
and the recomputed reference is index 3 (`p3`, closest to the tip), not
the point `p0` that is scanned last in the tip-to-body order
`[p3, p2, p1, p0]` — the claimed "later tied point" — whose value
`(0,0,0)` differs from the chosen `p3 = (2,0,0)`. -/
theorem C5_counterexample :
    ((Linkage.init trigTable 1 1 0 0 0 0 0 { x := 0, y := 0, z := 0, name := some "o" }
        (some "leg") none).map
      (fun l => (l.gc_index, (l.pget 0).z, (l.pget 1).z, (l.pget 2).z, (l.pget 3).z,
        decide (l.ground_contact_point = l.pget 0))))
      = some (3, 0, 0, 0, 0, false) := by decide

/-- Claim C3: a successful `change_pose` places `p1`, `p2`, `p3` by
transforming the local origin through the cumulative link transforms —
Y-rotation `-beta` with X-translation `a`; that transform chained with
Y-rotation `90 - gamma`, X-translation `b`; and further chained with
Y-rotation `0`, X-translation `c` — each then re-expressed through the
mount transform into the stored body-centered coordinates (`p0`'s local
counterpart is the origin itself). -/
theorem C3_link_transform_chain (T : TrigModel K) (l : Linkage K) (alpha beta gamma : K)
    (l' : Linkage K) (h : l.change_pose T alpha beta gamma = some l') :
    Point.coords (l'.pget 1) = Point.coords
      ((({ x := 0, y := 0, z := 0, name := none } : Point K).get_point_wrt
          (frame_yrotate_xtranslate T (-beta) l.a)).get_point_wrt
        (frame_zrotate_xytranslate T (l.coxia_axis + alpha) l.new_origin.x l.new_origin.y)) ∧
    Point.coords (l'.pget 2) = Point.coords
      ((({ x := 0, y := 0, z := 0, name := none } : Point K).get_point_wrt
          (Frame.comp (frame_yrotate_xtranslate T (-beta) l.a)
            (frame_yrotate_xtranslate T (90 - gamma) l.b))).get_point_wrt
        (frame_zrotate_xytranslate T (l.coxia_axis + alpha) l.new_origin.x l.new_origin.y)) ∧
    Point.coords (l'.pget 3) = Point.coords
      ((({ x := 0, y := 0, z := 0, name := none } : Point K).get_point_wrt
          (Frame.comp
            (Frame.comp (frame_yrotate_xtranslate T (-beta) l.a)
              (frame_yrotate_xtranslate T (90 - gamma) l.b))
            (frame_yrotate_xtranslate T 0 l.c))).get_point_wrt
        (frame_zrotate_xytranslate T (l.coxia_axis + alpha) l.new_origin.x l.new_origin.y)) := by
  obtain ⟨onm, nm, honm, hnm, hm'⟩ := l.change_pose_inv T alpha beta gamma l' h
  have hap : l'.all_points = change_pose_points T l alpha beta gamma onm nm := by
    rw [hm']
  refine ⟨?_, ?_, ?_⟩ <;>
    · simp only [Linkage.pget, hap, change_pose_points, List.getD_cons_succ,
        List.getD_cons_zero]
      rfl

/-- Witness for C3 at a concrete state. -/
theorem C3_link_transform_chain_witness :
    Point.coords (legNeutral.pget 1) = Point.coords
      ((({ x := 0, y := 0, z := 0, name := none } : Point ℤ).get_point_wrt
          (frame_yrotate_xtranslate trigTable (-0) legBase.a)).get_point_wrt
        (frame_zrotate_xytranslate trigTable (legBase.coxia_axis + 0) legBase.new_origin.x
          legBase.new_origin.y)) :=
  (C3_link_transform_chain trigTable legBase 0 0 0 legNeutral (by decide)).1

/-- Claim C2 (amended): a successful `change_pose` stores `p1`, `p2`,
`p3` as their body-contact-relative points re-expressed (and renamed)
through the mount transform built from `coxia_axis + alpha` and
`new_origin`; `p0`, however, is stored as a copy of `new_origin` with
"-body-contact" appended to its name, which agrees in coordinates with
the mount-transformed local origin exactly when `new_origin.z = 0` (the
original claim asserted that `p0` always equals the mount-transformed
local origin; `C2_counterexample` refutes that for `new_origin.z ≠ 0`). -/
theorem C2_mount_transform (T : TrigModel K) (l : Linkage K) (alpha beta gamma : K)
    (l' : Linkage K) (h : l.change_pose T alpha beta gamma = some l') :
    ∃ origin_name leg_name,
      l.new_origin.name = some origin_name ∧ l.name = some leg_name ∧
      l'.pget 0 = { l.new_origin with name := some (origin_name ++ "-body-contact") } ∧
      (l.new_origin.z = 0 → Point.coords (l'.pget 0) =
        Point.coords (({ x := 0, y := 0, z := 0, name := none } : Point K).get_point_wrt
          (frame_zrotate_xytranslate T (l.coxia_axis + alpha) l.new_origin.x
            l.new_origin.y))) ∧
      l'.pget 1 = (({ x := 0, y := 0, z := 0, name := none } : Point K).get_point_wrt
          (frame_yrotate_xtranslate T (-beta) l.a)).get_point_wrt_named
        (frame_zrotate_xytranslate T (l.coxia_axis + alpha) l.new_origin.x l.new_origin.y)
        (leg_name ++ "-coxia") ∧
      l'.pget 2 = (({ x := 0, y := 0, z := 0, name := none } : Point K).get_point_wrt
          (Frame.comp (frame_yrotate_xtranslate T (-beta) l.a)
            (frame_yrotate_xtranslate T (90 - gamma) l.b))).get_point_wrt_named
        (frame_zrotate_xytranslate T (l.coxia_axis + alpha) l.new_origin.x l.new_origin.y)
        (leg_name ++ "-femur") ∧
      l'.pget 3 = (({ x := 0, y := 0, z := 0, name := none } : Point K).get_point_wrt
          (Frame.comp
            (Frame.comp (frame_yrotate_xtranslate T (-beta) l.a)
              (frame_yrotate_xtranslate T (90 - gamma) l.b))
            (frame_yrotate_xtranslate T 0 l.c))).get_point_wrt_named
        (frame_zrotate_xytranslate T (l.coxia_axis + alpha) l.new_origin.x l.new_origin.y)
        (leg_name ++ "-tibia") := by
  obtain ⟨onm, nm, honm, hnm, hm'⟩ := l.change_pose_inv T alpha beta gamma l' h
  have hap : l'.all_points = change_pose_points T l alpha beta gamma onm nm := by
    rw [hm']
  refine ⟨onm, nm, honm, hnm, ?_, ?_, ?_, ?_, ?_⟩
  · simp only [Linkage.pget, hap, change_pose_points, List.getD_cons_zero]
  · intro hz
    simp only [Linkage.pget, hap, change_pose_points, List.getD_cons_zero, Point.coords,
      Point.get_point_wrt, frame_zrotate_xytranslate, hz, mul_zero, zero_mul, add_zero,
      zero_add, one_mul]
  · simp only [Linkage.pget, hap, change_pose_points, List.getD_cons_succ,
      List.getD_cons_zero]
  · simp only [Linkage.pget, hap, change_pose_points, List.getD_cons_succ,
      List.getD_cons_zero]
  · simp only [Linkage.pget, hap, change_pose_points, List.getD_cons_succ,
      List.getD_cons_zero]

/-- Witness for C2 at a concrete state. -/
theorem C2_mount_transform_witness :
    ∃ origin_name leg_name,
      legBase.new_origin.name = some origin_name ∧ legBase.name = some leg_name ∧
      legNeutral.pget 0
          = { legBase.new_origin with name := some (origin_name ++ "-body-contact") } ∧
      (legBase.new_origin.z = 0 → Point.coords (legNeutral.pget 0) =
        Point.coords (({ x := 0, y := 0, z := 0, name := none } : Point ℤ).get_point_wrt
          (frame_zrotate_xytranslate trigTable (legBase.coxia_axis + 0) legBase.new_origin.x
            legBase.new_origin.y))) ∧
      legNeutral.pget 1 = (({ x := 0, y := 0, z := 0, name := none } : Point ℤ).get_point_wrt
          (frame_yrotate_xtranslate trigTable (-0) legBase.a)).get_point_wrt_named
        (frame_zrotate_xytranslate trigTable (legBase.coxia_axis + 0) legBase.new_origin.x
          legBase.new_origin.y)
        (leg_name ++ "-coxia") ∧
      legNeutral.pget 2 = (({ x := 0, y := 0, z := 0, name := none } : Point ℤ).get_point_wrt
          (Frame.comp (frame_yrotate_xtranslate trigTable (-0) legBase.a)
            (frame_yrotate_xtranslate trigTable (90 - 0) legBase.b))).get_point_wrt_named
        (frame_zrotate_xytranslate trigTable (legBase.coxia_axis + 0) legBase.new_origin.x
          legBase.new_origin.y)
        (leg_name ++ "-femur") ∧
      legNeutral.pget 3 = (({ x := 0, y := 0, z := 0, name := none } : Point ℤ).get_point_wrt
          (Frame.comp
            (Frame.comp (frame_yrotate_xtranslate trigTable (-0) legBase.a)
              (frame_yrotate_xtranslate trigTable (90 - 0) legBase.b))
            (frame_yrotate_xtranslate trigTable 0 legBase.c))).get_point_wrt_named
        (frame_zrotate_xytranslate trigTable (legBase.coxia_axis + 0) legBase.new_origin.x
          legBase.new_origin.y)
        (leg_name ++ "-tibia") :=
  C2_mount_transform trigTable legBase 0 0 0 legNeutral (by decide)

/-- Counterexample to claim C2 as stated: for a mount origin with
nonzero `z` (here `new_origin = (1,2,5)`), the stored `p0` keeps the
coordinates `(1,2,5)` of `new_origin`, while the local origin
re-expressed through the mount transform has coordinates `(1,2,0)` —
the mount transform never produces a nonzero `z` from the local origin,
so the two differ. -/
theorem C2_counterexample :
    ((Linkage.init trigTable 1 1 1 0 0 0 0 { x := 1, y := 2, z := 5, name := some "o" }
        (some "leg") none).map (fun l => Point.coords (l.pget 0)))
      = some (1, 2, 5) ∧
    Point.coords (({ x := 0, y := 0, z := 0, name := none } : Point ℤ).get_point_wrt
        (frame_zrotate_xytranslate trigTable (0 + 0) 1 2)) = (1, 2, 0) ∧
    ((1 : ℤ), (2 : ℤ), (5 : ℤ)) ≠ ((1 : ℤ), (2 : ℤ), (0 : ℤ)) := by
  refine ⟨by decide, by decide, by decide⟩

/-- Claim C6: a linkage constructed with `coxia_axis = 0`, mount origin
`(0,0,0)` and the default all-zero angles sits in the documented neutral
pose: `p0 = (0,0,0)`, `p1 = (a,0,0)`, `p2 = (a+b,0,0)`,
`p3 = (a+b,0,-c)` — segments `a` and `b` collinear along the X axis and
segment `c` pointing straight down, perpendicular to `b`.  The
trigonometric hypotheses pin the interpretation of the two angles the
neutral pose exercises (0 and 90 degrees) to their genuine values. -/
theorem C6_neutral_pose (T : TrigModel K) (a b c : K) (origin_name leg_name : String)
    (id_number : Option Int) (l' : Linkage K)
    (hc0 : T.cos 0 = 1) (hs0 : T.sin 0 = 0) (hc90 : T.cos 90 = 0) (hs90 : T.sin 90 = 1)
    (h : Linkage.init T a b c 0 0 0 0 { x := 0, y := 0, z := 0, name := some origin_name }
        (some leg_name) id_number = some l') :
    Point.coords (l'.pget 0) = (0, 0, 0) ∧
    Point.coords (l'.pget 1) = (a, 0, 0) ∧
    Point.coords (l'.pget 2) = (a + b, 0, 0) ∧
    Point.coords (l'.pget 3) = (a + b, 0, -c) := by
  obtain ⟨onm, nm, honm, hnm, hm'⟩ := Linkage.change_pose_inv _ T 0 0 0 l' h
  have hap : l'.all_points = change_pose_points T
      { a := a, b := b, c := c, alpha := 0, beta := 0, gamma := 0, coxia_axis := 0,
        new_origin := { x := 0, y := 0, z := 0, name := some origin_name },
        name := some leg_name, id := id_number, all_points := [], gc_index := 0 }
      0 0 0 onm nm := by
    rw [hm']
  refine ⟨?_, ?_, ?_, ?_⟩ <;>
    simp only [Linkage.pget, hap, change_pose_points, List.getD_cons_succ,
      List.getD_cons_zero, Point.coords, Point.get_point_wrt, Point.get_point_wrt_named,
      frame_yrotate_xtranslate, frame_zrotate_xytranslate, Frame.comp,
      neg_zero, sub_zero, add_zero, zero_add, hc0, hs0, hc90, hs90,
      mul_zero, zero_mul, one_mul, mul_one, neg_one_mul, add_comm, Prod.mk.injEq,
      and_true, true_and]

/-- Witness for C6 at a concrete construction. -/
theorem C6_neutral_pose_witness :
    Point.coords (legNeutral.pget 0) = (0, 0, 0) ∧
    Point.coords (legNeutral.pget 1) = (1, 0, 0) ∧
    Point.coords (legNeutral.pget 2) = (1 + 1, 0, 0) ∧
    Point.coords (legNeutral.pget 3) = (1 + 1, 0, -1) :=
  C6_neutral_pose trigTable 1 1 1 "o" "leg" none legNeutral
    (by decide) (by decide) (by decide) (by decide) (by decide)
